import Mathlib

/-!
Shallow embedding of `python/openvino_tokenizers/hf_parser.py`: the
SentencePiece vocabulary mutator (`modify_sentencepiece_model`), the batched
prefix-token insertion algorithm (`add_prefix_tokens`), and the
configuration-to-pipeline dispatch of `TransformersTokenizerPipelineParser`
(normalizer, pre-tokenizer and decoder stages), together with theorems
settling the specification claims about them.
-/

set_option autoImplicit false

universe u

/-- One SentencePiece vocabulary piece: surface text, numeric type tag
(1 normal, 2 unknown, 3 control, 4 user-defined, 5 unused, 6 byte) and
score.  These are the fields of `ModelProto.SentencePiece` that
`modify_sentencepiece_model` reads or writes. -/
structure Piece where
  piece : String
  ptype : Nat
  score : Int
deriving DecidableEq

/-- The parts of a serialized SentencePiece `ModelProto` that
`modify_sentencepiece_model` touches: the ordered piece list (index equals
token id), the `trainer_spec.unk_surface` field and
`normalizer_spec.add_dummy_prefix`. -/
structure SPModel where
  pieces : List Piece
  unkSurface : String
  addDummyPref : Bool
deriving DecidableEq

/-- Failures of `modify_sentencepiece_model`, each an uncaught Python
exception: `pieceNotFound` is the `StopIteration` of the `next(...)` used
to locate the piece to relocate, `emptyPieces` the `IndexError` of
`model.pieces[-1]` on an empty piece list, `noUnkPiece` the
`StopIteration` of the final `next(piece for piece in model.pieces if
piece.type == 2)`. -/
inductive MErr where
  | pieceNotFound
  | emptyPieces
  | noUnkPiece
deriving DecidableEq

/-- The per-piece type-tag update of `modify_sentencepiece_model`
(hf_parser.py lines 487-490): when suppressing special tokens, a processed
piece whose type is neither 2 (unknown) nor 4 (user-defined) becomes 3
(control, excluded from detokenization); when not suppressing, a processed
piece of type 3 (control) is promoted to 4 (user-defined). -/
def retag (skipSpecialTokens : Bool) (t : Nat) : Nat :=
  if skipSpecialTokens then (if t ≠ 2 ∧ t ≠ 4 then 3 else t)
  else (if t = 3 then 4 else t)

/-- The `existing` dictionary of `modify_sentencepiece_model` (line 476):
maps the text of a piece to the piece holding it, later duplicates
overriding earlier ones.  It is built once, from the freshly parsed model,
before the insertion loop runs. -/
def existingMap (ps : List Piece) (t : String) : Option Piece :=
  ps.reverse.find? (fun p => p.piece == t)

/-- Python `list.insert`: inserts before position `i`, appending when `i`
is at or beyond the end of the list. -/
def pyInsert {α : Type u} (i : Nat) (a : α) : List α → List α
  | [] => [a]
  | x :: xs =>
    match i with
    | 0 => a :: x :: xs
    | n + 1 => x :: pyInsert n a xs

/-- Text given to a placeholder piece: `hf_tokenizer.decode(n) or
f"<empty_{n}>"` — the decoded string unless it is empty (falsy), else the
synthesized placeholder. -/
def missingText (decode : Nat → String) (n : Nat) : String :=
  if decode n = "" then "<empty_" ++ toString n ++ ">" else decode n

/-- Body of the backfill `while` loop of `modify_sentencepiece_model`
(lines 493-498): while the piece list is shorter than `idx`, append a copy
of the pending piece whose text is the tokenizer decoding of the current
length (placeholder when empty) and whose type tag is 4.  `list.insert`
at an index at or past the end appends, so each pass appends one piece.
The loop runs exactly `idx - length` times; the fuel argument makes the
recursion structural. -/
def backfillGo (np : Piece) (decode1 : Nat → String) (idx : Nat) :
    Nat → List Piece → List Piece
  | 0, st => st
  | fuel + 1, st =>
    if st.length < idx then
      backfillGo np decode1 idx fuel
        (st ++ [{ piece := missingText decode1 st.length, ptype := 4, score := np.score }])
    else st

/-- The backfill loop with its fuel fixed to the number of iterations it
actually performs. -/
def backfill (np : Piece) (decode1 : Nat → String) (idx : Nat) (st : List Piece) :
    List Piece :=
  backfillGo np decode1 idx (idx - st.length) st

/-- The `to_add` path of one iteration of the insertion loop of
`modify_sentencepiece_model` (lines 479-483 and 487-499): the requested
text either exists in the `existing` snapshot — then the first piece equal
to that entry is popped from its current position (relocation), retagged,
and re-inserted at `idx` — or the last piece of the current vocabulary is
cloned with its text overwritten (a `StopIteration` escapes if the lookup
finds no equal piece, an `IndexError` if the vocabulary is empty).  In
both cases the vocabulary is backfilled up to length `idx` before the
insertion. -/
def insertPath (existing : String → Option Piece) (decode1 : Nat → String)
    (skipSpecialTokens : Bool) (st : List Piece) (idx : Nat) (token : String) :
    Except MErr (List Piece) :=
  match existing token with
  | some ex =>
    match st.findIdx? (fun p => p == ex) with
    | none => .error .pieceNotFound
    | some i =>
      let np : Piece := { ex with ptype := retag skipSpecialTokens ex.ptype }
      .ok (pyInsert idx np (backfill np decode1 idx (st.eraseIdx i)))
  | none =>
    match st.getLast? with
    | none => .error .emptyPieces
    | some lastP =>
      let np : Piece :=
        { lastP with piece := token, ptype := retag skipSpecialTokens lastP.ptype }
      .ok (pyInsert idx np (backfill np decode1 idx st))

/-- One iteration of the insertion loop of `modify_sentencepiece_model`
(lines 477-499) for the request `(idx, token)`: when the piece already at
`idx` has exactly the requested text it is reused in place (only the type
retag applies); otherwise the relocation/clone path runs. -/
def stepOne (existing : String → Option Piece) (decode1 : Nat → String)
    (skipSpecialTokens : Bool) (st : List Piece) (req : Nat × String) :
    Except MErr (List Piece) :=
  match st[req.1]? with
  | some p =>
    if p.piece = req.2 then
      .ok (st.set req.1 { p with ptype := retag skipSpecialTokens p.ptype })
    else insertPath existing decode1 skipSpecialTokens st req.1 req.2
  | none => insertPath existing decode1 skipSpecialTokens st req.1 req.2

/-- Stable insertion by ascending first component, used to model Python's
`sorted(add_tokens.items())` (tuple order; the ids of a dict are
distinct, so ordering by id alone is exact). -/
def insertSorted (x : Nat × String) : List (Nat × String) → List (Nat × String)
  | [] => [x]
  | y :: ys => if x.1 ≤ y.1 then x :: y :: ys else y :: insertSorted x ys

/-- Insertion sort by ascending id, modeling `sorted(add_tokens.items())`. -/
def sortByFst : List (Nat × String) → List (Nat × String)
  | [] => []
  | x :: xs => insertSorted x (sortByFst xs)

/-- The `for idx, token in sorted(add_tokens.items())` loop: runs the given
iteration body over the requests in order, propagating the first uncaught
exception. -/
def runSteps (f : List Piece → Nat × String → Except MErr (List Piece)) :
    List Piece → List (Nat × String) → Except MErr (List Piece)
  | st, [] => .ok st
  | st, r :: rs =>
    match f st r with
    | .ok st' => runSteps f st' rs
    | .error e => .error e

/-- Body of the vocabulary-size padding loop of `modify_sentencepiece_model`
(lines 501-507): while the piece list is shorter than the tokenizer's
declared `vocab_size`, append a copy of the last piece with its text set to
the decoding of the current length (placeholder when empty) and its type
set to 3.  Fuel makes the recursion structural; the loop runs exactly
`target - length` times. -/
def padGo (decode2 : Nat → String) (target : Nat) :
    Nat → List Piece → Except MErr (List Piece)
  | 0, st => .ok st
  | fuel + 1, st =>
    if st.length < target then
      match st.getLast? with
      | none => .error .emptyPieces
      | some lastP =>
        padGo decode2 target fuel
          (st ++ [{ piece := missingText decode2 st.length, ptype := 3, score := lastP.score }])
    else .ok st

/-- The vocabulary-size padding loop; `getattr(hf_tokenizer, "vocab_size",
len(model.pieces))` makes the loop a no-op when the tokenizer declares no
vocabulary size, modeled by the `none` case. -/
def padLoop (decode2 : Nat → String) (vocabSize : Option Nat) (st : List Piece) :
    Except MErr (List Piece) :=
  match vocabSize with
  | none => .ok st
  | some v => padGo decode2 v (v - st.length) st

/-- The piece-list transformation of `modify_sentencepiece_model`: the
insertion loop over the requests in ascending id order (the `existing`
snapshot is taken from the input model and never rebuilt), followed by the
vocabulary-size padding loop.  `decode1` models `hf_tokenizer.decode(n)`
as called in the backfill loop and `decode2` models
`hf_tokenizer.decode(n, skip_special_tokens=False)` as called in the
padding loop. -/
def modifyPieces (m : SPModel) (addTokens : List (Nat × String))
    (decode1 decode2 : Nat → String) (vocabSize : Option Nat)
    (skipSpecialTokens : Bool) : Except MErr (List Piece) :=
  match runSteps (stepOne (existingMap m.pieces) decode1 skipSpecialTokens)
      m.pieces (sortByFst addTokens) with
  | .error e => .error e
  | .ok ps => padLoop decode2 vocabSize ps

/-- `modify_sentencepiece_model` (hf_parser.py lines 461-513) on the parsed
model value: runs the insertion loop and the padding loop, then rewrites
`trainer_spec.unk_surface` to the text of the first piece whose type tag
is 2 (an uncaught `StopIteration` when there is none).  The
`normalizer_spec.add_dummy_prefix` assignment happens first in the source;
it touches an independent field, so it is applied in the assembled result.
Serialization of the result is out of scope (injective re-encoding). -/
def modify_sentencepiece_model (m : SPModel) (addTokens : List (Nat × String))
    (decode1 decode2 : Nat → String) (vocabSize : Option Nat)
    (skipSpecialTokens : Bool) (addPrefixSpace : Option Bool) :
    Except MErr SPModel :=
  match modifyPieces m addTokens decode1 decode2 vocabSize skipSpecialTokens with
  | .error e => .error e
  | .ok ps =>
    match ps.find? (fun p => p.ptype == 2) with
    | none => .error .noUnkPiece
    | some unkPiece =>
      .ok { pieces := ps, unkSurface := unkPiece.piece,
            addDummyPref := addPrefixSpace.getD m.addDummyPref }

/-- Failures of `add_prefix_tokens`: `missingMaskLeftPadding` is the
explicit `ValueError("You must pass attention_mask when add prefix with
left padding.")` precondition check; `maskNoneAttribute` is the
`AttributeError` raised by `attention_mask.get_element_type()` when the
final mask concatenation runs with `attention_mask=None`. -/
inductive PrefErr where
  | missingMaskLeftPadding
  | maskNoneAttribute
deriving DecidableEq

/-- Result of `add_prefix_tokens`: the grown dense shape, the sparse
`(row, col)` coordinates, the values aligned with them, and the extended
attention mask (dense, one row per batch element). -/
structure PrefixResult where
  denseShape : Nat × Nat
  indices : List (Nat × Nat)
  values : List Int
  attentionMask : List (List Nat)
deriving DecidableEq

/-- `add_prefix_tokens` (hf_parser.py lines 719-785) with the OpenVINO
tensor expressions evaluated as list computations:

* `prefix_tokens[..., ::-1]`: the prefix is reversed for left padding;
* `dense_shape + [0, prefix_len]`: the sequence dimension grows by the
  prefix length;
* new values: the `(1, P)` prefix broadcast to `(batch, P)` and reshaped to
  `[-1]` appends `P` prefix values per row, row-major;
* `x_indices`: `range(batch)` broadcast to `(P, batch)`, transposed to
  `(batch, P)` and reshaped to `(-1, 1)` yields each row index repeated
  `P` times;
* `y_indices`: for left padding, the per-row attention-mask sum (the row's
  real length) plus `range(P)`; for right padding `range(P)` broadcast
  over the batch, with all pre-existing indices shifted right by `P`;
* `concat([x_indices, y_indices], axis=1)` pairs the two columns (`zip`);
* the new mask is `concat([ones(batch, P), mask], axis=1)`: `P` one-columns
  prepended to every row.  This step reads `attention_mask.get_element_type()`
  unconditionally, so a missing mask crashes here even for right padding. -/
def add_prefix_tokens (prefixTokens : List Int) (denseShape : Nat × Nat)
    (indices : List (Nat × Nat)) (values : List Int)
    (attentionMask : Option (List (List Nat))) (doLeftPadding : Bool) :
    Except PrefErr PrefixResult :=
  if doLeftPadding = true ∧ attentionMask = none then
    .error .missingMaskLeftPadding
  else
    let prefixT := if doLeftPadding then prefixTokens.reverse else prefixTokens
    let prefixLen := prefixT.length
    let batch := denseShape.1
    let newShape := (denseShape.1, denseShape.2 + prefixLen)
    let newValues := values ++ (List.range batch).flatMap (fun _ => prefixT)
    let xIndices := (List.range batch).flatMap (fun b => List.replicate prefixLen b)
    let rowLen : Nat → Nat := fun b => ((attentionMask.getD []).getD b []).sum
    let yIndices :=
      if doLeftPadding then
        (List.range batch).flatMap
          (fun b => (List.range prefixLen).map (fun j => rowLen b + j))
      else
        (List.range batch).flatMap (fun _ => List.range prefixLen)
    let baseIndices :=
      if doLeftPadding then indices
      else indices.map (fun rc => (rc.1, rc.2 + prefixLen))
    let newIndices := baseIndices ++ xIndices.zip yIndices
    match attentionMask with
    | none => .error .maskNoneAttribute
    | some mask =>
      .ok { denseShape := newShape, indices := newIndices, values := newValues,
            attentionMask := mask.map (fun row => List.replicate prefixLen 1 ++ row) }

/-- The `ScatterNDUpdate` of a sparse batch onto a dense default-filled
tensor, as used by `convert_sentencepiece_model_tokenizer` to materialize
token ids: entry `(r, c)` takes the value scattered at `(r, c)` (the
coordinate list holds each pair at most once, per the batch invariant) and
the broadcast default elsewhere. -/
def scatterDense (shape : Nat × Nat) (indices : List (Nat × Nat))
    (values : List Int) (default : Int) : List (List Int) :=
  (List.range shape.1).map fun r =>
    (List.range shape.2).map fun c =>
      match (indices.zip values).find? (fun p => p.1 == (r, c)) with
      | some p => p.2
      | none => default

/-- JSON-like values of the `tokenizer.json` configuration document, as far
as the dispatch code inspects them. -/
inductive JValue where
  | null
  | bool (b : Bool)
  | num (n : Int)
  | str (s : String)
  | arr (xs : List JValue)
  | obj (fields : List (String × JValue))

/-- Python truthiness of a JSON value: `None`, `False`, `0`, `""`, `[]` and
`{}` are falsy. -/
def jTruthy : JValue → Bool
  | .null => false
  | .bool b => b
  | .num n => n != 0
  | .str s => s ≠ ""
  | .arr xs => !xs.isEmpty
  | .obj fs => !fs.isEmpty

/-- Key lookup in a JSON object's field list. -/
def jLook (fields : List (String × JValue)) (k : String) : Option JValue :=
  fields.lookup k

/-- Errors a rule-constructor can raise: `keyError` models a Python
`KeyError` (subscripting a dict with a missing key), `otherError` any other
exception (`AttributeError`/`TypeError` from using a value of the wrong
shape).  Only `KeyError` is caught by the dispatch wrappers. -/
inductive CtorErr where
  | keyError
  | otherError
deriving DecidableEq

/-- `d.get(k)`: `None` (here `none`) when the key is missing, an
`AttributeError` when `d` is not a dict. -/
def jGetE : JValue → String → Except CtorErr (Option JValue)
  | .obj fs, k => .ok (jLook fs k)
  | _, _ => .error .otherError

/-- `d[k]`: a `KeyError` when the key is missing, a `TypeError` when `d` is
not a dict. -/
def jIndexE : JValue → String → Except CtorErr JValue
  | .obj fs, k =>
    match jLook fs k with
    | some v => .ok v
    | none => .error .keyError
  | _, _ => .error .otherError

/-- Coercion to a string where the Python code applies string operations to
the value; anything else would raise an `AttributeError`/`TypeError`. -/
def asStrE : JValue → Except CtorErr String
  | .str s => .ok s
  | _ => .error .otherError

/-- Python `.rstrip("d")`: drop every trailing `'d'`. -/
def rstripD (s : String) : String :=
  String.mk ((s.toList.reverse.dropWhile (fun c => c = 'd')).reverse)

/-- Pipeline steps, one constructor per step the parsed stages can emit.
Constructors of steps that live in `tokenizer_pipeline.py` (outside this
file's source) carry the configuration values they are built from and are
otherwise opaque. -/
inductive PStep where
  | normalizeUnicode (form : String)
  | nmtNormalization
  | caseFold
  | stripAccentsRegex
  | prependRegexNorm (v : JValue)
  | regexNormalization (search : String) (content : JValue)
  | stripString (left right : JValue)
  | addPrefixWhitespaceRegex
  | byteLevelSplitter
  | bertSplitter
  | whitespaceSplitterRegex
  | whitespaceSplit
  | regexSplit (pattern : JValue) (invert : JValue) (behaviour : String)
  | punctuationSplitter (behavior : JValue)
  | digitsSplitter (behaviour : String)
  | bytesToChars
  | vocabDecoder (skipTokens : List Int)
  | replaceDecode (d : JValue)
  | fuse
  | stripDecode (d : JValue)
  | byteFallback
  | charsToBytes
  | replaceEndOfWordSuffix (suffix : String)
  | replaceContinuingSubword (pref : String)
  | cleanUpTokenizationSpaces

/-- `parse_replace_normalizer` (hf_parser.py lines 60-71):
`d["pattern"].get("String") or d["pattern"]["Regex"]` picks the string
pattern when present and truthy, else the regex; the pattern is run through
`filter_re2_incompatible` (a utility outside this file's source, passed as
a function) and when the filtered pattern is empty no step is emitted;
otherwise a regex-normalization step with the original (unfiltered) pattern
and the `content` replacement. -/
def parse_replace_normalizer (filterRe2 : String → String) (d : JValue) :
    Except CtorErr (List PStep) := do
  let pat ← jIndexE d "pattern"
  let sOpt ← jGetE pat "String"
  let rawPattern ←
    match sOpt with
    | some v => if jTruthy v then pure v else jIndexE pat "Regex"
    | none => jIndexE pat "Regex"
  let regexSearch ← asStrE rawPattern
  if filterRe2 regexSearch = "" then
    pure []
  else do
    let content ← jIndexE d "content"
    pure [PStep.regexNormalization regexSearch content]

/-- `parse_bert_normalizer` (lines 74-90): reads `clean_text` (currently a
no-op but still subscripted), emits NFD plus accent-stripping when
`strip_accents` or `lowercase` is truthy, and a case-folding step when
`lowercase` is exactly `True`. -/
def parse_bert_normalizer (d : JValue) : Except CtorErr (List PStep) := do
  let _ ← jIndexE d "clean_text"
  let sa ← jGetE d "strip_accents"
  let lc ← jIndexE d "lowercase"
  let s1 :=
    if (match sa with | some v => jTruthy v | none => false) || jTruthy lc then
      [PStep.normalizeUnicode "NFD", PStep.stripAccentsRegex]
    else []
  let s2 := match lc with | .bool true => [PStep.caseFold] | _ => []
  pure (s1 ++ s2)

/-- `parse_strip_step` (lines 93-97). -/
def parse_strip_step (d : JValue) : Except CtorErr (List PStep) := do
  let l ← jIndexE d "strip_left"
  let r ← jIndexE d "strip_right"
  pure [PStep.stripString l r]

/-- `parse_split_step` (lines 100-106): same pattern selection as the
replace normalizer, the raw `invert` value, and
`behavior.lower().rstrip("d")`. -/
def parse_split_step (d : JValue) : Except CtorErr (List PStep) := do
  let pat ← jIndexE d "pattern"
  let sOpt ← jGetE pat "String"
  let splitPattern ←
    match sOpt with
    | some v => if jTruthy v then pure v else jIndexE pat "Regex"
    | none => jIndexE pat "Regex"
  let inv ← jIndexE d "invert"
  let behRaw ← jIndexE d "behavior"
  let behS ← asStrE behRaw
  pure [PStep.regexSplit splitPattern inv (rstripD behS.toLower)]

/-- `parse_byte_level_pretokenization_step` (lines 109-125): optional
prefix-whitespace normalization when `add_prefix_space` is truthy, the
byte-level regex splitter unless `use_regex` is present and falsy, then the
byte-to-printable-character remapping step. -/
def parse_byte_level_pretokenization_step (d : JValue) :
    Except CtorErr (List PStep) := do
  let aps ← jGetE d "add_prefix_space"
  let s1 :=
    match aps with
    | some v => if jTruthy v then [PStep.addPrefixWhitespaceRegex] else []
    | none => []
  let ur ← jGetE d "use_regex"
  let s2 :=
    match ur with
    | some v => if jTruthy v then [PStep.byteLevelSplitter] else []
    | none => [PStep.byteLevelSplitter]
  pure (s1 ++ s2 ++ [PStep.bytesToChars])

/-- The `normalizers_map` dispatch table
(`TransformersTokenizerPipelineParser`, lines 170-185), keyed by the rule's
declared type tag. -/
def normalizerCtor (filterRe2 : String → String) :
    String → Option (JValue → Except CtorErr (List PStep))
  | "NFC" => some fun _ => .ok [.normalizeUnicode "NFC"]
  | "NFD" => some fun _ => .ok [.normalizeUnicode "NFD"]
  | "NFKC" => some fun _ => .ok [.normalizeUnicode "NFKC"]
  | "NFKD" => some fun _ => .ok [.normalizeUnicode "NFKD"]
  | "Nmt" => some fun _ => .ok [.nmtNormalization]
  | "Lowercase" => some fun _ => .ok [.caseFold]
  | "StripAccents" => some fun _ => .ok [.stripAccentsRegex]
  | "BertNormalizer" => some parse_bert_normalizer
  | "Replace" => some (parse_replace_normalizer filterRe2)
  | "Strip" => some parse_strip_step
  | "Prepend" => some fun d => do
      let v ← jGetE d "prepend"
      pure [.prependRegexNorm (v.getD (.str ""))]
  | _ => none

/-- The `pre_tokenization_map` dispatch table (lines 203-216). -/
def preTokenizerCtor : String → Option (JValue → Except CtorErr (List PStep))
  | "BertPreTokenizer" => some fun _ => .ok [.bertSplitter]
  | "Whitespace" => some fun _ => .ok [.whitespaceSplitterRegex]
  | "WhitespaceSplit" => some fun _ => .ok [.whitespaceSplit]
  | "Split" => some parse_split_step
  | "Punctuation" => some fun d => do
      let b ← jIndexE d "behavior"
      pure [.punctuationSplitter b]
  | "ByteLevel" => some parse_byte_level_pretokenization_step
  | "Digits" => some fun d => do
      let v ← jIndexE d "individual_digits"
      pure [.digitsSplitter (if jTruthy v then "isolate" else "contiguous")]
  | _ => none

/-- Errors of the stage parsers: `ovTypeError stage tag` is the
`OVTypeError(f"{stage} type '{tag}' is not supported")` raised when the
declared type tag misses the stage's dispatch table — or when a `KeyError`
escapes the matched constructor, since the `try/except KeyError` wrapper
cannot tell the two apart; `uncaughtKeyError` a `KeyError` that the wrapper
itself re-raises (a rule object without a `"type"` key fails again inside
the `except` block's f-string); `otherError` any other uncaught exception. -/
inductive CErr where
  | ovTypeError (stage : String) (tag : JValue)
  | uncaughtKeyError
  | otherError

/-- The shared shape of `parse_normalizer_step` and
`parse_pre_tokenization_step` (lines 187-191 and 218-222):
`try: pipeline.add_steps(table[d["type"]](d)) except KeyError: raise
OVTypeError(...)`.  A missing `"type"` key raises `KeyError`, is caught,
and the `except` block's f-string re-raises `KeyError`; an unhashable tag
(list/dict) is a `TypeError`; a hashable non-string tag misses the
string-keyed table, so the lookup's `KeyError` becomes the `OVTypeError`;
for a known tag, a `KeyError` escaping the constructor is caught by the
same handler and reported as the same `OVTypeError`. -/
def parseStageStep (stage : String)
    (table : String → Option (JValue → Except CtorErr (List PStep)))
    (steps : List PStep) (d : JValue) : Except CErr (List PStep) :=
  match jIndexE d "type" with
  | .error .keyError => .error .uncaughtKeyError
  | .error .otherError => .error .otherError
  | .ok t =>
    match t with
    | .str s =>
      match table s with
      | none => .error (.ovTypeError stage (.str s))
      | some ctor =>
        match ctor d with
        | .ok newSteps => .ok (steps ++ newSteps)
        | .error .keyError => .error (.ovTypeError stage (.str s))
        | .error .otherError => .error .otherError
    | .arr _ => .error .otherError
    | .obj _ => .error .otherError
    | other => .error (.ovTypeError stage other)

/-- `parse_normalizer_step` (lines 187-191). -/
def parse_normalizer_step (filterRe2 : String → String) (steps : List PStep)
    (d : JValue) : Except CErr (List PStep) :=
  parseStageStep "Normalizer" (normalizerCtor filterRe2) steps d

/-- `parse_pre_tokenization_step` (lines 218-222). -/
def parse_pre_tokenization_step (steps : List PStep) (d : JValue) :
    Except CErr (List PStep) :=
  parseStageStep "Pre-tokenizer" preTokenizerCtor steps d

/-- The `for` loop over the rules of a `Sequence` wrapper, accumulating
steps into the pipeline and aborting at the first uncaught exception. -/
def runStageSteps (f : List PStep → JValue → Except CErr (List PStep)) :
    List PStep → List JValue → Except CErr (List PStep)
  | acc, [] => .ok acc
  | acc, d :: ds =>
    match f acc d with
    | .ok acc' => runStageSteps f acc' ds
    | .error e => .error e

/-- The shared shape of the `normalization` and `pre_tokenization` stage
walkers (lines 193-201 and 224-232): a `null` stage contributes nothing; a
`Sequence` wrapper iterates its rule list (a non-list there is modeled as
an error); any other sub-document is parsed as a single rule. -/
def parseStage (stageJson : Option JValue) (seqKey : String)
    (f : List PStep → JValue → Except CErr (List PStep)) :
    Except CErr (List PStep) :=
  match stageJson with
  | none => .ok []
  | some nj =>
    match jGetE nj "type" with
    | .error _ => .error .otherError
    | .ok t =>
      match t with
      | some (.str "Sequence") =>
        match jIndexE nj seqKey with
        | .error .keyError => .error .uncaughtKeyError
        | .error .otherError => .error .otherError
        | .ok (.arr ds) => runStageSteps f [] ds
        | .ok _ => .error .otherError
      | _ => f [] nj

/-- `TransformersTokenizerPipelineParser.normalization` (lines 193-201).
On error no step list is produced: compilation aborts with no usable
pipeline. -/
def normalization (filterRe2 : String → String) (normalizerJson : Option JValue) :
    Except CErr (List PStep) :=
  parseStage normalizerJson "normalizers" (parse_normalizer_step filterRe2)

/-- `TransformersTokenizerPipelineParser.pre_tokenization` (lines 224-232). -/
def pre_tokenization (preTokenizerJson : Option JValue) :
    Except CErr (List PStep) :=
  parseStage preTokenizerJson "pretokenizers" parse_pre_tokenization_step

/-- The `decoding_map` dispatch table (lines 335-343): the only decoder
types a `Sequence` decoder recognizes. -/
def decodingCtor : String → Option (JValue → List PStep)
  | "Replace" => some fun d => [.replaceDecode d]
  | "Fuse" => some fun _ => [.fuse]
  | "Strip" => some fun d => [.stripDecode d]
  | "ByteFallback" => some fun _ => [.byteFallback]
  | _ => none

/-- One entry of the `Sequence` decoder loop (lines 357-363):
`decoding_map.get(decoder_dict.get("type"))` — a missing or unrecognized
(hashable) tag yields `None` and the entry is skipped silently, with no
step and no error; `.get` on a non-dict entry is an `AttributeError`, and
an unhashable tag a `TypeError`. -/
def parse_sequence_decoder_step (d : JValue) : Except CErr (List PStep) :=
  match jGetE d "type" with
  | .error _ => .error .otherError
  | .ok none => .ok []
  | .ok (some t) =>
    match t with
    | .str s =>
      match decodingCtor s with
      | some ctor => .ok (ctor d)
      | none => .ok []
    | .arr _ => .error .otherError
    | .obj _ => .error .otherError
    | _ => .ok []

/-- The `for` loop over a `Sequence` decoder's sub-decoders. -/
def runSeqDecoders : List PStep → List JValue → Except CErr (List PStep)
  | acc, [] => .ok acc
  | acc, d :: ds =>
    match parse_sequence_decoder_step d with
    | .ok s => runSeqDecoders (acc ++ s) ds
    | .error e => .error e

/-- The decoder-type dispatch inside
`TransformersTokenizerPipelineParser.decoding` (lines 356-367): a
`Sequence` decoder iterates its sub-decoders through the silent-skip
lookup, a `ByteLevel` decoder maps to the chars-to-bytes step, and any
other declared type to a fuse step. -/
def decodingMid (dj : JValue) : Except CErr (List PStep) :=
  match jIndexE dj "type" with
  | .error .keyError => .error .uncaughtKeyError
  | .error .otherError => .error .otherError
  | .ok (.str "Sequence") =>
    match jIndexE dj "decoders" with
    | .error .keyError => .error .uncaughtKeyError
    | .error .otherError => .error .otherError
    | .ok (.arr ds) => runSeqDecoders [] ds
    | .ok _ => .error .otherError
  | .ok (.str "ByteLevel") => .ok [PStep.charsToBytes]
  | .ok _ => .ok [PStep.fuse]

/-- `TransformersTokenizerPipelineParser.decoding` (lines 345-380).  The
stage is skipped for a `null` decoder or a WordPiece model; otherwise a
vocabulary-lookup step always comes first (suppressing the parsed special
tokens when requested — `parse_special_tokens` reflects over the external
tokenizer object and is passed in as `specialTokens`); then the
decoder-type dispatch (`decodingMid`); then the end-of-word-suffix and
continuing-subword rules (each only when the model metadata value is
truthy) and the optional final cleanup rule (the parameter defaulting to
the tokenizer attribute, and the decode-step list being nonempty here by
construction). -/
def decoding (decoderJson : Option JValue) (modelType : String)
    (endOfWordSuffix contSubwordPref : Option String)
    (skipSpecialTokens : Bool) (specialTokens : List Int)
    (cleanUpParam : Option Bool) (tokenizerCleanUp : Bool) :
    Except CErr (List PStep) :=
  match decoderJson with
  | none => .ok []
  | some dj =>
    if modelType = "WordPiece" then .ok []
    else
      let skipTokens := if skipSpecialTokens then specialTokens else []
      match decodingMid dj with
      | .error e => .error e
      | .ok midSteps =>
        let s1 :=
          match endOfWordSuffix with
          | some sfx => if sfx ≠ "" then [PStep.replaceEndOfWordSuffix sfx] else []
          | none => []
        let s2 :=
          match contSubwordPref with
          | some pfx => if pfx ≠ "" then [PStep.replaceContinuingSubword pfx] else []
          | none => []
        let cleanUp := cleanUpParam.getD tokenizerCleanUp
        let allSteps := PStep.vocabDecoder skipTokens :: midSteps ++ s1 ++ s2
        .ok (if cleanUp then
              (if allSteps.isEmpty then allSteps
               else allSteps ++ [PStep.cleanUpTokenizationSpaces])
             else allSteps)

/-- The steps a single `Sequence` sub-decoder object contributes: empty
unless its `"type"` field holds one of the four recognized tags. -/
def recognizedDecoderSteps (d : JValue) : List PStep :=
  match d with
  | .obj fs =>
    match jLook fs "type" with
    | some (.str s) =>
      match decodingCtor s with
      | some ctor => ctor d
      | none => []
    | _ => []
  | _ => []

/-- A `Sequence` sub-decoder entry that the loop can process without an
uncaught exception: a dict whose `"type"` value, if any, is hashable. -/
def seqDecoderOk : JValue → Bool
  | .obj fs =>
    match jLook fs "type" with
    | some (.arr _) => false
    | some (.obj _) => false
    | _ => true
  | _ => false

theorem pyInsert_getElem_self {α : Type u} (a : α) :
    ∀ (l : List α) (i : Nat), i ≤ l.length → (pyInsert i a l)[i]? = some a
  | [], 0, _ => rfl
  | [], i + 1, h => by simp at h
  | _ :: _, 0, _ => rfl
  | x :: xs, i + 1, h => by
    simpa [pyInsert] using pyInsert_getElem_self a xs i (by simpa using h)

theorem mem_pyInsert {α : Type u} (a b : α) :
    ∀ (l : List α) (i : Nat), b ∈ pyInsert i a l ↔ b = a ∨ b ∈ l
  | [], i => by simp [pyInsert]
  | x :: xs, 0 => by simp [pyInsert]
  | x :: xs, i + 1 => by
    simp [pyInsert, mem_pyInsert a b xs i]
    tauto

theorem backfillGo_length (np : Piece) (d1 : Nat → String) (idx : Nat) :
    ∀ (fuel : Nat) (st : List Piece), idx ≤ st.length + fuel →
      idx ≤ (backfillGo np d1 idx fuel st).length
  | 0, st, h => by simpa using h
  | fuel + 1, st, h => by
    by_cases hlt : st.length < idx
    · rw [backfillGo, if_pos hlt]
      exact backfillGo_length np d1 idx fuel _ (by simp; omega)
    · rw [backfillGo, if_neg hlt]
      omega

theorem backfill_length (np : Piece) (d1 : Nat → String) (idx : Nat)
    (st : List Piece) : idx ≤ (backfill np d1 idx st).length :=
  backfillGo_length np d1 idx _ st (by omega)

theorem mem_backfillGo (np : Piece) (d1 : Nat → String) (idx : Nat) :
    ∀ (fuel : Nat) (st : List Piece) (p : Piece),
      p ∈ backfillGo np d1 idx fuel st → p ∈ st ∨ p.ptype = 4
  | 0, _, _, h => Or.inl h
  | fuel + 1, st, p, h => by
    by_cases hlt : st.length < idx
    · rw [backfillGo, if_pos hlt] at h
      rcases mem_backfillGo np d1 idx fuel _ p h with h' | h'
      · rcases List.mem_append.1 h' with h'' | h''
        · exact Or.inl h''
        · right
          rw [List.mem_singleton.1 h'']
      · exact Or.inr h'
    · rw [backfillGo, if_neg hlt] at h
      exact Or.inl h

theorem mem_backfill (np : Piece) (d1 : Nat → String) (idx : Nat)
    (st : List Piece) (p : Piece) (h : p ∈ backfill np d1 idx st) :
    p ∈ st ∨ p.ptype = 4 :=
  mem_backfillGo np d1 idx _ st p h

theorem padGo_ok_length (d2 : Nat → String) (target : Nat) :
    ∀ (fuel : Nat) (st out : List Piece), target ≤ st.length + fuel →
      padGo d2 target fuel st = .ok out → target ≤ out.length
  | 0, st, out, h, hok => by
    cases hok
    simpa using h
  | fuel + 1, st, out, h, hok => by
    by_cases hlt : st.length < target
    · rw [padGo, if_pos hlt] at hok
      match hl : st.getLast? with
      | none => rw [hl] at hok; cases hok
      | some lastP =>
        rw [hl] at hok
        exact padGo_ok_length d2 target fuel _ out (by simp; omega) hok
    · rw [padGo, if_neg hlt] at hok
      cases hok
      omega

theorem mem_padGo_ok (d2 : Nat → String) (target : Nat) :
    ∀ (fuel : Nat) (st out : List Piece), padGo d2 target fuel st = .ok out →
      ∀ p ∈ out, p ∈ st ∨ p.ptype = 3
  | 0, st, out, hok => by
    cases hok
    exact fun p hp => Or.inl hp
  | fuel + 1, st, out, hok => by
    by_cases hlt : st.length < target
    · rw [padGo, if_pos hlt] at hok
      match hl : st.getLast? with
      | none => rw [hl] at hok; cases hok
      | some lastP =>
        rw [hl] at hok
        intro p hp
        rcases mem_padGo_ok d2 target fuel _ out hok p hp with h' | h'
        · rcases List.mem_append.1 h' with h'' | h''
          · exact Or.inl h''
          · right
            rw [List.mem_singleton.1 h'']
        · exact Or.inr h'
    · rw [padGo, if_neg hlt] at hok
      cases hok
      exact fun p hp => Or.inl hp

theorem set_getElem_self {α : Type u} :
    ∀ (l : List α) (i : Nat) (a : α), l[i]? = some a → l.set i a = l
  | [], i, a, h => by simp at h
  | x :: xs, 0, a, h => by
    simp only [List.getElem?_cons_zero, Option.some.injEq] at h
    rw [List.set, h]
  | x :: xs, i + 1, a, h => by
    simp only [List.getElem?_cons_succ] at h
    rw [List.set, set_getElem_self xs i a h]

theorem mem_insertSorted (x y : Nat × String) :
    ∀ l : List (Nat × String), y ∈ insertSorted x l ↔ y = x ∨ y ∈ l
  | [] => by simp [insertSorted]
  | z :: zs => by
    by_cases h : x.1 ≤ z.1
    · simp [insertSorted, h]
    · simp [insertSorted, h, mem_insertSorted x y zs]
      tauto

theorem perm_insertSorted (x : Nat × String) :
    ∀ l : List (Nat × String), List.Perm (insertSorted x l) (x :: l)
  | [] => List.Perm.refl _
  | z :: zs => by
    by_cases h : x.1 ≤ z.1
    · rw [insertSorted, if_pos h]
    · rw [insertSorted, if_neg h]
      exact ((perm_insertSorted x zs).cons z).trans (List.Perm.swap x z zs)

theorem sortByFst_perm : ∀ l : List (Nat × String), List.Perm (sortByFst l) l
  | [] => List.Perm.refl _
  | x :: xs => (perm_insertSorted x (sortByFst xs)).trans ((sortByFst_perm xs).cons x)

theorem pairwise_insertSorted (x : Nat × String) :
    ∀ l : List (Nat × String),
      List.Pairwise (fun a b => a.1 ≤ b.1) l →
      List.Pairwise (fun a b => a.1 ≤ b.1) (insertSorted x l)
  | [], _ => List.Pairwise.cons (by simp) List.Pairwise.nil
  | z :: zs, h => by
    rcases List.pairwise_cons.1 h with ⟨hz, hzs⟩
    by_cases hle : x.1 ≤ z.1
    · rw [insertSorted, if_pos hle]
      refine List.pairwise_cons.2 ⟨?_, h⟩
      intro b hb
      rcases List.mem_cons.1 hb with rfl | hb'
      · exact hle
      · exact Nat.le_trans hle (hz b hb')
    · rw [insertSorted, if_neg hle]
      refine List.pairwise_cons.2 ⟨?_, pairwise_insertSorted x zs hzs⟩
      intro b hb
      rcases (mem_insertSorted x b zs).1 hb with rfl | hb'
      · omega
      · exact hz b hb'

theorem sortByFst_sorted :
    ∀ l : List (Nat × String), List.Pairwise (fun a b => a.1 ≤ b.1) (sortByFst l)
  | [] => List.Pairwise.nil
  | x :: xs => pairwise_insertSorted x (sortByFst xs) (sortByFst_sorted xs)

theorem retag_ne_two (s : Bool) (t : Nat) (h : t ≠ 2) : retag s t ≠ 2 := by
  unfold retag
  cases s
  · simp only [Bool.false_eq_true, if_false]
    split <;> omega
  · simp only [if_true]
    split <;> omega

theorem existingMap_mem (ps : List Piece) (t : String) (p : Piece)
    (h : existingMap ps t = some p) : p ∈ ps := by
  have := List.mem_of_find?_eq_some h
  simpa using this

theorem mem_of_getElem_some {α : Type u} {l : List α} {i : Nat} {a : α}
    (h : l[i]? = some a) : a ∈ l := by
  obtain ⟨hlt, rfl⟩ := List.getElem?_eq_some_iff.mp h
  exact List.getElem_mem hlt

theorem insertPath_no2 (existing : String → Option Piece) (d1 : Nat → String)
    (skip : Bool) (st : List Piece) (idx : Nat) (token : String)
    (st' : List Piece)
    (hst : ∀ p ∈ st, p.ptype ≠ 2)
    (hex : ∀ t ex, existing t = some ex → ex.ptype ≠ 2)
    (h : insertPath existing d1 skip st idx token = .ok st') :
    ∀ p ∈ st', p.ptype ≠ 2 := by
  unfold insertPath at h
  split at h
  · rename_i ex hexm
    split at h
    · cases h
    · rename_i i hfi
      cases h
      intro p hp
      rcases (mem_pyInsert _ p _ idx).1 hp with rfl | hp'
      · exact retag_ne_two skip ex.ptype (hex token ex hexm)
      · rcases mem_backfill _ d1 idx _ p hp' with hp'' | hp''
        · exact hst p ((List.eraseIdx_sublist st i).mem hp'')
        · omega
  · rename_i hexm
    split at h
    · cases h
    · rename_i lastP hl
      cases h
      intro p hp
      rcases (mem_pyInsert _ p _ idx).1 hp with rfl | hp'
      · exact retag_ne_two skip lastP.ptype (hst lastP (List.mem_of_getLast?_eq_some hl))
      · rcases mem_backfill _ d1 idx _ p hp' with hp'' | hp''
        · exact hst p hp''
        · omega

theorem stepOne_no2 (existing : String → Option Piece) (d1 : Nat → String)
    (skip : Bool) (st : List Piece) (req : Nat × String) (st' : List Piece)
    (hst : ∀ p ∈ st, p.ptype ≠ 2)
    (hex : ∀ t ex, existing t = some ex → ex.ptype ≠ 2)
    (h : stepOne existing d1 skip st req = .ok st') :
    ∀ p ∈ st', p.ptype ≠ 2 := by
  unfold stepOne at h
  split at h
  · rename_i q hp
    split at h
    · cases h
      intro p hmem
      rcases List.mem_or_eq_of_mem_set hmem with h' | h'
      · exact hst p h'
      · rw [h']
        exact retag_ne_two skip q.ptype (hst q (mem_of_getElem_some hp))
    · exact insertPath_no2 existing d1 skip st req.1 req.2 st' hst hex h
  · exact insertPath_no2 existing d1 skip st req.1 req.2 st' hst hex h

theorem runSteps_no2 (existing : String → Option Piece) (d1 : Nat → String)
    (skip : Bool) :
    ∀ (rs : List (Nat × String)) (st st' : List Piece),
      (∀ p ∈ st, p.ptype ≠ 2) →
      (∀ t ex, existing t = some ex → ex.ptype ≠ 2) →
      runSteps (stepOne existing d1 skip) st rs = .ok st' →
      ∀ p ∈ st', p.ptype ≠ 2
  | [], st, st', hst, _, h => by
    cases h
    exact hst
  | r :: rs, st, st', hst, hex, h => by
    rw [runSteps] at h
    match hs : stepOne existing d1 skip st r with
    | .error e => rw [hs] at h; cases h
    | .ok st1 =>
      rw [hs] at h
      exact runSteps_no2 existing d1 skip rs st1 st'
        (stepOne_no2 existing d1 skip st r st1 hst hex hs) hex h

theorem padLoop_no2 (d2 : Nat → String) (vs : Option Nat) (st out : List Piece)
    (hst : ∀ p ∈ st, p.ptype ≠ 2)
    (h : padLoop d2 vs st = .ok out) : ∀ p ∈ out, p.ptype ≠ 2 := by
  match vs with
  | none =>
    cases h
    exact hst
  | some v =>
    intro p hp
    rcases mem_padGo_ok d2 v _ st out h p hp with h' | h'
    · exact hst p h'
    · omega

theorem modifyPieces_no2 (m : SPModel) (addTokens : List (Nat × String))
    (d1 d2 : Nat → String) (vs : Option Nat) (skip : Bool) (ps : List Piece)
    (hno : ∀ p ∈ m.pieces, p.ptype ≠ 2)
    (hok : modifyPieces m addTokens d1 d2 vs skip = .ok ps) :
    ∀ p ∈ ps, p.ptype ≠ 2 := by
  have hex : ∀ t ex, existingMap m.pieces t = some ex → ex.ptype ≠ 2 :=
    fun t ex h => hno ex (existingMap_mem m.pieces t ex h)
  unfold modifyPieces at hok
  match hr : runSteps (stepOne (existingMap m.pieces) d1 skip) m.pieces
      (sortByFst addTokens) with
  | .error e => rw [hr] at hok; cases hok
  | .ok ps0 =>
    rw [hr] at hok
    exact padLoop_no2 d2 vs ps0 ps
      (runSteps_no2 (existingMap m.pieces) d1 skip (sortByFst addTokens)
        m.pieces ps0 hno hex hr) hok

universe v

theorem zip_replicate_map {α : Type u} {β : Type v} (a : α) :
    ∀ l : List β, (List.replicate l.length a).zip l = l.map (fun x => (a, x))
  | [] => rfl
  | x :: xs => by
    rw [List.length_cons, List.replicate_succ, List.zip_cons_cons,
      List.map_cons, zip_replicate_map a xs]

theorem zip_flatMap_rows (P : Nat) (g : Nat → Nat → Nat) :
    ∀ l : List Nat,
      (l.flatMap fun b => List.replicate P b).zip
          (l.flatMap fun b => (List.range P).map (g b)) =
        l.flatMap fun b => (List.range P).map (fun j => (b, g b j))
  | [] => rfl
  | b :: bs => by
    rw [List.flatMap_cons, List.flatMap_cons, List.flatMap_cons,
      List.zip_append (by simp), zip_flatMap_rows P g bs]
    congr 1
    calc (List.replicate P b).zip ((List.range P).map (g b))
        = (List.replicate ((List.range P).map (g b)).length b).zip
            ((List.range P).map (g b)) := by simp
      _ = ((List.range P).map (g b)).map (fun x => (b, x)) := zip_replicate_map b _
      _ = (List.range P).map (fun j => (b, g b j)) := by
          rw [List.map_map]
          rfl

theorem filter_flatMap_rows_length (P : Nat) (g : Nat → Nat → Nat) (b : Nat) :
    ∀ l : List Nat, l.Nodup → b ∈ l →
      ((l.flatMap fun b' => (List.range P).map (fun j => (b', g b' j))).filter
        (fun rc => rc.1 == b)).length = P
  | [], _, hb => by simp at hb
  | a :: l, hnd, hb => by
    rw [List.flatMap_cons, List.filter_append, List.length_append]
    rcases List.mem_cons.1 hb with rfl | hb'
    · have hnotin : b ∉ l := (List.nodup_cons.1 hnd).1
      have h1 : (((List.range P).map fun j => (b, g b j)).filter
          (fun rc => rc.1 == b)).length = P := by
        rw [List.filter_eq_self.2 ?_]
        · simp
        · intro x hx
          rcases List.mem_map.1 hx with ⟨j, _, rfl⟩
          simp
      have h2 : ((l.flatMap fun b' => (List.range P).map fun j => (b', g b' j)).filter
          (fun rc => rc.1 == b)) = [] := by
        rw [List.filter_eq_nil_iff]
        intro x hx
        rcases List.mem_flatMap.1 hx with ⟨b', hb', hx'⟩
        rcases List.mem_map.1 hx' with ⟨j, _, rfl⟩
        simp only [beq_iff_eq]
        rintro rfl
        exact hnotin hb'
      rw [h1, h2]
      simp
    · have ha : a ≠ b := fun h => (List.nodup_cons.1 hnd).1 (h ▸ hb')
      have h1 : (((List.range P).map fun j => (a, g a j)).filter
          (fun rc => rc.1 == b)) = [] := by
        rw [List.filter_eq_nil_iff]
        intro x hx
        rcases List.mem_map.1 hx with ⟨j, _, rfl⟩
        simp [ha]
      rw [h1]
      simp only [List.length_nil, Nat.zero_add]
      exact filter_flatMap_rows_length P g b l (List.nodup_cons.1 hnd).2 hb'

theorem runSteps_reuse_fixed (existing : String → Option Piece)
    (d1 : Nat → String) (skip : Bool) :
    ∀ (rs : List (Nat × String)) (st : List Piece),
      (∀ r ∈ rs, ∃ p, st[r.1]? = some p ∧ p.piece = r.2 ∧
        retag skip p.ptype = p.ptype) →
      runSteps (stepOne existing d1 skip) st rs = .ok st
  | [], _, _ => rfl
  | r :: rs, st, h => by
    obtain ⟨p, hp, hpc, hfix⟩ := h r (List.mem_cons_self r rs)
    have hstep : stepOne existing d1 skip st r = .ok st := by
      unfold stepOne
      rw [hp]
      show (if p.piece = r.2 then
          Except.ok (st.set r.1 { p with ptype := retag skip p.ptype })
        else insertPath existing d1 skip st r.1 r.2) = Except.ok st
      rw [if_pos hpc, hfix]
      exact congrArg Except.ok (set_getElem_self st r.1 p hp)
    rw [runSteps, hstep]
    exact runSteps_reuse_fixed existing d1 skip rs st
      (fun r' hr' => h r' (List.mem_cons_of_mem r hr'))

theorem padLoop_ok_length (d2 : Nat → String) (v : Nat) (st out : List Piece)
    (h : padLoop d2 (some v) st = .ok out) : v ≤ out.length :=
  padGo_ok_length d2 v (v - st.length) st out (by omega) h

theorem padLoop_idem (d2 : Nat → String) (vs : Option Nat) (st out : List Piece)
    (h : padLoop d2 vs st = .ok out) : padLoop d2 vs out = .ok out := by
  match vs with
  | none => rfl
  | some v =>
    have hlen : v ≤ out.length := padLoop_ok_length d2 v st out h
    show padGo d2 v (v - out.length) out = .ok out
    have hz : v - out.length = 0 := by omega
    rw [hz]
    rfl

theorem runStageSteps_append_error
    (f : List PStep → JValue → Except CErr (List PStep)) (e : CErr) :
    ∀ (pre : List JValue) (acc acc' : List PStep) (d : JValue)
      (rest : List JValue),
      runStageSteps f acc pre = .ok acc' → f acc' d = .error e →
      runStageSteps f acc (pre ++ d :: rest) = .error e
  | [], acc, acc', d, rest, hok, herr => by
    cases hok
    rw [List.nil_append, runStageSteps, herr]
  | q :: pre, acc, acc', d, rest, hok, herr => by
    rw [runStageSteps] at hok
    match hq : f acc q with
    | .error e' => rw [hq] at hok; cases hok
    | .ok acc1 =>
      rw [hq] at hok
      rw [List.cons_append, runStageSteps, hq]
      exact runStageSteps_append_error f e pre acc1 acc' d rest hok herr

theorem parse_sequence_decoder_ok (d : JValue) (h : seqDecoderOk d = true) :
    parse_sequence_decoder_step d = .ok (recognizedDecoderSteps d) := by
  match d with
  | .null | .bool _ | .num _ | .str _ | .arr _ => simp [seqDecoderOk] at h
  | .obj fs =>
    simp only [seqDecoderOk] at h
    simp only [parse_sequence_decoder_step, recognizedDecoderSteps, jGetE]
    match hl : jLook fs "type" with
    | none => simp [hl]
    | some (.str s) =>
      simp only [hl]
      match hc : decodingCtor s with
      | some ctor => simp [hc]
      | none => simp [hc]
    | some .null => simp [hl]
    | some (.bool _) => simp [hl]
    | some (.num _) => simp [hl]
    | some (.arr _) =>
      simp only [hl] at h
      exact Bool.noConfusion h
    | some (.obj _) =>
      simp only [hl] at h
      exact Bool.noConfusion h

theorem runSeqDecoders_flatMap :
    ∀ (ds : List JValue) (acc : List PStep),
      (∀ d ∈ ds, seqDecoderOk d = true) →
      runSeqDecoders acc ds = .ok (acc ++ ds.flatMap recognizedDecoderSteps)
  | [], acc, _ => by simp [runSeqDecoders]
  | d :: ds, acc, h => by
    rw [runSeqDecoders, parse_sequence_decoder_ok d (h d (List.mem_cons_self d ds))]
    show runSeqDecoders (acc ++ recognizedDecoderSteps d) ds =
      .ok (acc ++ (d :: ds).flatMap recognizedDecoderSteps)
    rw [runSeqDecoders_flatMap ds (acc ++ recognizedDecoderSteps d)
      (fun d' hd' => h d' (List.mem_cons_of_mem d hd'))]
    simp

/-- Claim C1 (code_bug evidence): `add_prefix_tokens` does not succeed for
right padding without an attention mask.  The explicit precondition
`ValueError` is raised only for left padding; with right padding and
`attention_mask=None` the mask-extension step still dereferences the
missing mask (`attention_mask.get_element_type()`), so the call fails with
an `AttributeError` instead of returning the extended encoding — the two
failures are distinct, and supplying a mask makes the same right-padding
call succeed. -/
theorem add_prefix_tokens_without_mask_fails :
    add_prefix_tokens [100, 101] (2, 3) [(0, 0), (0, 1), (1, 0)] [5, 6, 7]
        none false = .error .maskNoneAttribute ∧
    add_prefix_tokens [100, 101] (2, 3) [(0, 0), (0, 1), (1, 0)] [5, 6, 7]
        none true = .error .missingMaskLeftPadding ∧
    PrefErr.maskNoneAttribute ≠ PrefErr.missingMaskLeftPadding ∧
    (∃ r, add_prefix_tokens [100, 101] (2, 3) [(0, 0), (0, 1), (1, 0)] [5, 6, 7]
        (some [[1, 1, 0], [1, 0, 0]]) false = .ok r) :=
  ⟨rfl, rfl, by decide, ⟨_, rfl⟩⟩

/-- Claim C4: inserting the prefix `[100, 101]` with right padding into the
batch `dense_shape=[2,3]`, `indices=[(0,0),(0,1),(1,0)]`, `values=[5,6,7]`,
`attention_mask=[[1,1,0],[1,0,0]]` yields `dense_shape=[2,5]`, the prefix
in columns `[0,2)` of every row, all pre-existing indices shifted right by
2, dense rows `[100,101,5,6,0]` and `[100,101,7,0,0]` (zero default), and
per-row attention-mask true-counts 4 and 3. -/
theorem add_prefix_tokens_right_padding_example :
    add_prefix_tokens [100, 101] (2, 3) [(0, 0), (0, 1), (1, 0)] [5, 6, 7]
        (some [[1, 1, 0], [1, 0, 0]]) false =
      .ok { denseShape := (2, 5),
            indices := [(0, 2), (0, 3), (1, 2), (0, 0), (0, 1), (1, 0), (1, 1)],
            values := [5, 6, 7, 100, 101, 100, 101],
            attentionMask := [[1, 1, 1, 1, 0], [1, 1, 1, 0, 0]] } ∧
    scatterDense (2, 5) [(0, 2), (0, 3), (1, 2), (0, 0), (0, 1), (1, 0), (1, 1)]
        [5, 6, 7, 100, 101, 100, 101] 0 =
      [[100, 101, 5, 6, 0], [100, 101, 7, 0, 0]] ∧
    ([[1, 1, 1, 1, 0], [1, 1, 1, 0, 0]] : List (List Nat)).map List.sum = [4, 3] :=
  ⟨rfl, rfl, rfl⟩

/-- Claim C2 counterexample: with `skip_special_tokens=True`, relocating the
user-defined (type 4) piece `"s"` to id 3 leaves its type 4 — it is not
retagged as control (type 3) although it is not of the unknown-piece type,
because the source exempts type 4 alongside type 2
(`new_piece.type not in (2, 4)`). -/
theorem modify_relocated_userdef_piece_not_control :
    modify_sentencepiece_model
        ⟨[⟨"a", 1, 0⟩, ⟨"u", 2, 0⟩, ⟨"s", 4, 0⟩], "uq", false⟩ [(3, "s")]
        (fun _ => "d") (fun _ => "d") none true none =
      .ok ⟨[⟨"a", 1, 0⟩, ⟨"u", 2, 0⟩, ⟨"d", 4, 0⟩, ⟨"s", 4, 0⟩], "u", false⟩ ∧
    ([⟨"a", 1, 0⟩, ⟨"u", 2, 0⟩, ⟨"d", 4, 0⟩, ⟨"s", 4, 0⟩] : List Piece)[3]? =
      some ⟨"s", 4, 0⟩ ∧
    retag true 4 = 4 ∧ (4 : Nat) ≠ 3 :=
  ⟨rfl, rfl, rfl, by decide⟩

/-- Claim C3 counterexample: `"Replace"` is a recognized normalizer type,
yet a `Replace` rule without its required `pattern` field raises the same
unsupported-rule `OVTypeError` naming the stage and the tag — the internal
`KeyError` is caught by the same `except KeyError` handler — so the
unsupported-rule error is not raised only for unrecognized tags. -/
theorem recognized_replace_rule_reports_unsupported :
    (normalizerCtor id "Replace").isSome = true ∧
    normalization id (some (.obj [("type", .str "Replace")])) =
      .error (.ovTypeError "Normalizer" (.str "Replace")) :=
  ⟨rfl, rfl⟩

/-- Claim C7 counterexample: applying `modify_sentencepiece_model` a second
time with the same insertion set `{2: "A", 5: "B"}` to the output of a
first application changes the result again — in the first pass the later
relocation of `"B"` (from position 0 to 5) shifts the freshly inserted
`"A"` from its requested id 2 down to 1, so the second pass relocates
`"A"` once more and the piece list differs. -/
theorem modify_not_idempotent_counterexample :
    modify_sentencepiece_model
        ⟨[⟨"B", 1, 0⟩, ⟨"<unk>", 2, 0⟩, ⟨"x2", 1, 0⟩, ⟨"x3", 1, 0⟩,
          ⟨"x4", 1, 0⟩, ⟨"x5", 1, 0⟩], "uq", false⟩
        [(2, "A"), (5, "B")] (fun _ => "d") (fun _ => "d") none false none =
      .ok ⟨[⟨"<unk>", 2, 0⟩, ⟨"A", 1, 0⟩, ⟨"x2", 1, 0⟩, ⟨"x3", 1, 0⟩,
            ⟨"x4", 1, 0⟩, ⟨"B", 1, 0⟩, ⟨"x5", 1, 0⟩], "<unk>", false⟩ ∧
    modify_sentencepiece_model
        ⟨[⟨"<unk>", 2, 0⟩, ⟨"A", 1, 0⟩, ⟨"x2", 1, 0⟩, ⟨"x3", 1, 0⟩,
          ⟨"x4", 1, 0⟩, ⟨"B", 1, 0⟩, ⟨"x5", 1, 0⟩], "<unk>", false⟩
        [(2, "A"), (5, "B")] (fun _ => "d") (fun _ => "d") none false none =
      .ok ⟨[⟨"<unk>", 2, 0⟩, ⟨"x2", 1, 0⟩, ⟨"A", 1, 0⟩, ⟨"x3", 1, 0⟩,
            ⟨"x4", 1, 0⟩, ⟨"B", 1, 0⟩, ⟨"x5", 1, 0⟩], "<unk>", false⟩ ∧
    (⟨[⟨"<unk>", 2, 0⟩, ⟨"x2", 1, 0⟩, ⟨"A", 1, 0⟩, ⟨"x3", 1, 0⟩,
       ⟨"x4", 1, 0⟩, ⟨"B", 1, 0⟩, ⟨"x5", 1, 0⟩], "<unk>", false⟩ : SPModel) ≠
      ⟨[⟨"<unk>", 2, 0⟩, ⟨"A", 1, 0⟩, ⟨"x2", 1, 0⟩, ⟨"x3", 1, 0⟩,
        ⟨"x4", 1, 0⟩, ⟨"B", 1, 0⟩, ⟨"x5", 1, 0⟩], "<unk>", false⟩ :=
  ⟨rfl, rfl, by decide⟩

theorem insertPath_reloc_eq (existing : String → Option Piece)
    (d1 : Nat → String) (skip : Bool) (st : List Piece) (idx : Nat)
    (token : String) (ex : Piece) (i : Nat)
    (hexm : existing token = some ex)
    (hfi : st.findIdx? (fun q => q == ex) = some i) :
    insertPath existing d1 skip st idx token =
      .ok (pyInsert idx { ex with ptype := retag skip ex.ptype }
        (backfill { ex with ptype := retag skip ex.ptype } d1 idx
          (st.eraseIdx i))) := by
  unfold insertPath
  rw [hexm]
  show (match st.findIdx? (fun q => q == ex) with
    | none => Except.error MErr.pieceNotFound
    | some i =>
      Except.ok (pyInsert idx { ex with ptype := retag skip ex.ptype }
        (backfill { ex with ptype := retag skip ex.ptype } d1 idx
          (st.eraseIdx i)))) = _
  rw [hfi]

theorem insertPath_clone_eq (existing : String → Option Piece)
    (d1 : Nat → String) (skip : Bool) (st : List Piece) (idx : Nat)
    (token : String) (lastP : Piece)
    (hexm : existing token = none) (hl : st.getLast? = some lastP) :
    insertPath existing d1 skip st idx token =
      .ok (pyInsert idx { lastP with piece := token, ptype := retag skip lastP.ptype }
        (backfill { lastP with piece := token, ptype := retag skip lastP.ptype }
          d1 idx st)) := by
  unfold insertPath
  rw [hexm]
  show (match st.getLast? with
    | none => Except.error MErr.emptyPieces
    | some lastP =>
      Except.ok (pyInsert idx { lastP with piece := token, ptype := retag skip lastP.ptype }
        (backfill { lastP with piece := token, ptype := retag skip lastP.ptype }
          d1 idx st))) = _
  rw [hl]

theorem stepOne_reuse_eq (existing : String → Option Piece)
    (d1 : Nat → String) (skip : Bool) (st : List Piece) (idx : Nat)
    (token : String) (p : Piece)
    (hp : st[idx]? = some p) (hpc : p.piece = token) :
    stepOne existing d1 skip st (idx, token) =
      .ok (st.set idx { p with ptype := retag skip p.ptype }) := by
  unfold stepOne
  dsimp only
  rw [hp]
  show (if p.piece = token then
      Except.ok (st.set idx { p with ptype := retag skip p.ptype })
    else insertPath existing d1 skip st idx token) = _
  rw [if_pos hpc]

theorem stepOne_toAdd_eq (existing : String → Option Piece)
    (d1 : Nat → String) (skip : Bool) (st : List Piece) (idx : Nat)
    (token : String)
    (htoAdd : ∀ p, st[idx]? = some p → p.piece ≠ token) :
    stepOne existing d1 skip st (idx, token) =
      insertPath existing d1 skip st idx token := by
  unfold stepOne
  dsimp only
  match hp : st[idx]? with
  | none => rfl
  | some p =>
    show (if p.piece = token then
        Except.ok (st.set idx { p with ptype := retag skip p.ptype })
      else insertPath existing d1 skip st idx token) = _
    rw [if_neg (htoAdd p hp)]

/-- Claim C2 (amended): in `modify_sentencepiece_model`, when suppressing
special tokens, every inserted or relocated piece that is neither of the
unknown-piece type (2) nor already user-defined (4) is retagged as control
(3), and a user-defined piece keeps its tag; when not suppressing, every
processed piece currently tagged control (3) is promoted to user-defined
(4); the policy is applied per requested id, to the piece placed at that
id.  The first two conjuncts state the retag policy itself; the last two
state that the relocation and clone paths place exactly the retagged piece
at the requested id. -/
theorem modify_type_tag_policy (existing : String → Option Piece)
    (d1 : Nat → String) (st : List Piece) (idx : Nat) (token : String) :
    (∀ t, retag true t = if t ≠ 2 ∧ t ≠ 4 then 3 else t) ∧
    (∀ t, retag false t = if t = 3 then 4 else t) ∧
    (∀ skip ex i, existing token = some ex →
      st.findIdx? (fun q => q == ex) = some i →
      insertPath existing d1 skip st idx token =
        .ok (pyInsert idx { ex with ptype := retag skip ex.ptype }
          (backfill { ex with ptype := retag skip ex.ptype } d1 idx
            (st.eraseIdx i))) ∧
      (pyInsert idx { ex with ptype := retag skip ex.ptype }
          (backfill { ex with ptype := retag skip ex.ptype } d1 idx
            (st.eraseIdx i)))[idx]? = some { ex with ptype := retag skip ex.ptype }) ∧
    (∀ skip lastP, existing token = none → st.getLast? = some lastP →
      insertPath existing d1 skip st idx token =
        .ok (pyInsert idx { lastP with piece := token, ptype := retag skip lastP.ptype }
          (backfill { lastP with piece := token, ptype := retag skip lastP.ptype }
            d1 idx st)) ∧
      (pyInsert idx { lastP with piece := token, ptype := retag skip lastP.ptype }
          (backfill { lastP with piece := token, ptype := retag skip lastP.ptype }
            d1 idx st))[idx]? =
        some { lastP with piece := token, ptype := retag skip lastP.ptype }) := by
  refine ⟨fun t => rfl, fun t => rfl, ?_, ?_⟩
  · intro skip ex i hexm hfi
    exact ⟨insertPath_reloc_eq existing d1 skip st idx token ex i hexm hfi,
      pyInsert_getElem_self _ _ idx (backfill_length _ d1 idx _)⟩
  · intro skip lastP hexm hl
    exact ⟨insertPath_clone_eq existing d1 skip st idx token lastP hexm hl,
      pyInsert_getElem_self _ _ idx (backfill_length _ d1 idx _)⟩

/-- Witness for `modify_type_tag_policy`: the relocation path applied to a
user-defined piece (tag kept at 4 under suppression) and the clone path
applied to a normal piece (tag set to 3 under suppression), both at
concrete inputs. -/
theorem modify_type_tag_policy_witness :
    insertPath (fun t => if t = "s" then some ⟨"s", 4, 0⟩ else none)
        (fun _ => "d") true [⟨"a", 1, 0⟩, ⟨"s", 4, 0⟩] 3 "s" =
      .ok [⟨"a", 1, 0⟩, ⟨"d", 4, 0⟩, ⟨"d", 4, 0⟩, ⟨"s", 4, 0⟩] ∧
    insertPath (fun _ => none) (fun _ => "d") true [⟨"c", 1, 0⟩] 0 "Z" =
      .ok [⟨"Z", 3, 0⟩, ⟨"c", 1, 0⟩] :=
  ⟨((modify_type_tag_policy (fun t => if t = "s" then some ⟨"s", 4, 0⟩ else none)
      (fun _ => "d") [⟨"a", 1, 0⟩, ⟨"s", 4, 0⟩] 3 "s").2.2.1 true ⟨"s", 4, 0⟩ 1
      rfl rfl).1,
   ((modify_type_tag_policy (fun _ => none) (fun _ => "d") [⟨"c", 1, 0⟩] 0
      "Z").2.2.2 true ⟨"c", 1, 0⟩ rfl rfl).1⟩

/-- Claim C6: `modify_sentencepiece_model` processes the requested
`(id, text)` insertions in ascending id order (the processed list is a
sorted permutation of the requests, and the piece-list transformation is
the loop over that sorted list followed by the padding loop), and each
iteration applies exactly the reuse → relocate → clone tie-break: if the
piece already at `id` has the requested text it is reused in place
(regardless of whether the text also exists elsewhere); otherwise, if the
text has an entry in the vocabulary's `existing` snapshot, the first piece
equal to that entry is removed from its current position and re-inserted
at `id` (shifting the intervening pieces); otherwise the last piece of the
current vocabulary is cloned, its text overwritten, and inserted at `id`
— in the latter two cases backfilling with placeholder pieces first when
the vocabulary is shorter than `id`. -/
theorem modify_insertion_order_and_tie_break (m : SPModel)
    (addTokens : List (Nat × String)) (d1 d2 : Nat → String)
    (vs : Option Nat) (skip : Bool) :
    List.Pairwise (fun a b => a.1 ≤ b.1) (sortByFst addTokens) ∧
    List.Perm (sortByFst addTokens) addTokens ∧
    (modifyPieces m addTokens d1 d2 vs skip =
      match runSteps (stepOne (existingMap m.pieces) d1 skip) m.pieces
          (sortByFst addTokens) with
      | .error e => .error e
      | .ok ps => padLoop d2 vs ps) ∧
    (∀ (existing : String → Option Piece) (st : List Piece) (idx : Nat)
        (token : String) (p : Piece), st[idx]? = some p → p.piece = token →
      stepOne existing d1 skip st (idx, token) =
        .ok (st.set idx { p with ptype := retag skip p.ptype })) ∧
    (∀ (existing : String → Option Piece) (st : List Piece) (idx : Nat)
        (token : String) (ex : Piece) (i : Nat),
      (∀ p, st[idx]? = some p → p.piece ≠ token) →
      existing token = some ex →
      st.findIdx? (fun q => q == ex) = some i →
      stepOne existing d1 skip st (idx, token) =
        .ok (pyInsert idx { ex with ptype := retag skip ex.ptype }
          (backfill { ex with ptype := retag skip ex.ptype } d1 idx
            (st.eraseIdx i)))) ∧
    (∀ (existing : String → Option Piece) (st : List Piece) (idx : Nat)
        (token : String) (lastP : Piece),
      (∀ p, st[idx]? = some p → p.piece ≠ token) →
      existing token = none →
      st.getLast? = some lastP →
      stepOne existing d1 skip st (idx, token) =
        .ok (pyInsert idx { lastP with piece := token, ptype := retag skip lastP.ptype }
          (backfill { lastP with piece := token, ptype := retag skip lastP.ptype }
            d1 idx st))) := by
  refine ⟨sortByFst_sorted addTokens, sortByFst_perm addTokens, rfl, ?_, ?_, ?_⟩
  · intro existing st idx token p hp hpc
    exact stepOne_reuse_eq existing d1 skip st idx token p hp hpc
  · intro existing st idx token ex i htoAdd hexm hfi
    rw [stepOne_toAdd_eq existing d1 skip st idx token htoAdd]
    exact insertPath_reloc_eq existing d1 skip st idx token ex i hexm hfi
  · intro existing st idx token lastP htoAdd hexm hl
    rw [stepOne_toAdd_eq existing d1 skip st idx token htoAdd]
    exact insertPath_clone_eq existing d1 skip st idx token lastP hexm hl

/-- Witness for `modify_insertion_order_and_tie_break`: the reuse,
relocation and clone branches each applied at a concrete input. -/
theorem modify_insertion_order_and_tie_break_witness :
    stepOne (fun _ => none) (fun _ => "d") false [⟨"B", 1, 0⟩] (0, "B") =
      .ok [⟨"B", 1, 0⟩] ∧
    stepOne (fun t => if t = "B" then some ⟨"B", 1, 0⟩ else none) (fun _ => "d")
        false [⟨"c", 1, 0⟩, ⟨"B", 1, 0⟩] (0, "B") =
      .ok [⟨"B", 1, 0⟩, ⟨"c", 1, 0⟩] ∧
    stepOne (fun _ => none) (fun _ => "d") false [⟨"c", 1, 0⟩] (0, "Z") =
      .ok [⟨"Z", 1, 0⟩, ⟨"c", 1, 0⟩] :=
  ⟨(modify_insertion_order_and_tie_break ⟨[], "", false⟩ [] (fun _ => "d")
      (fun _ => "d") none false).2.2.2.1 (fun _ => none) [⟨"B", 1, 0⟩] 0 "B"
      ⟨"B", 1, 0⟩ rfl rfl,
   (modify_insertion_order_and_tie_break ⟨[], "", false⟩ [] (fun _ => "d")
      (fun _ => "d") none false).2.2.2.2.1
      (fun t => if t = "B" then some ⟨"B", 1, 0⟩ else none)
      [⟨"c", 1, 0⟩, ⟨"B", 1, 0⟩] 0 "B" ⟨"B", 1, 0⟩ 1
      (by
        intro p hp
        simp only [List.getElem?_cons_zero, Option.some.injEq] at hp
        rw [← hp]
        decide) rfl rfl,
   (modify_insertion_order_and_tie_break ⟨[], "", false⟩ [] (fun _ => "d")
      (fun _ => "d") none false).2.2.2.2.2 (fun _ => none) [⟨"c", 1, 0⟩] 0 "Z"
      ⟨"c", 1, 0⟩
      (by
        intro p hp
        simp only [List.getElem?_cons_zero, Option.some.injEq] at hp
        rw [← hp]
        decide) rfl rfl⟩

/-- Claim C8: after `modify_sentencepiece_model` returns, the model's
global unknown-surface field equals the text of the piece whose type tag is
the unknown type (2) — stated for any run whose result has a unique
unknown-tagged piece, which covers every insertion set that does not alter
the unknown piece itself. -/
theorem modify_unk_surface_eq_unknown_piece_text (m : SPModel)
    (addTokens : List (Nat × String)) (d1 d2 : Nat → String)
    (vs : Option Nat) (skip : Bool) (aps : Option Bool) (m' : SPModel)
    (u : Piece)
    (hok : modify_sentencepiece_model m addTokens d1 d2 vs skip aps = .ok m')
    (hu : u ∈ m'.pieces) (hu2 : u.ptype = 2)
    (huniq : ∀ v ∈ m'.pieces, v.ptype = 2 → v = u) :
    m'.unkSurface = u.piece := by
  unfold modify_sentencepiece_model at hok
  split at hok
  · cases hok
  · rename_i ps hmp
    split at hok
    · cases hok
    · rename_i unkPiece hf
      cases hok
      have h2 : unkPiece.ptype = 2 := by
        have := List.find?_some hf
        simpa using this
      have hmem : unkPiece ∈ ps := List.mem_of_find?_eq_some hf
      have heq : unkPiece = u := huniq unkPiece hmem h2
      show unkPiece.piece = u.piece
      rw [heq]

/-- Witness for `modify_unk_surface_eq_unknown_piece_text` at a concrete
model with a single unknown piece and an empty insertion set. -/
theorem modify_unk_surface_eq_unknown_piece_text_witness :
    (⟨[⟨"u", 2, 0⟩], "u", false⟩ : SPModel).unkSurface =
      (⟨"u", 2, 0⟩ : Piece).piece :=
  modify_unk_surface_eq_unknown_piece_text ⟨[⟨"u", 2, 0⟩], "q", false⟩ []
    (fun _ => "d") (fun _ => "d") none false none
    ⟨[⟨"u", 2, 0⟩], "u", false⟩ ⟨"u", 2, 0⟩ rfl (by decide) rfl (by decide)

/-- Claim C10: when the input SentencePiece model contains no piece of the
unknown type (2), `modify_sentencepiece_model` fails with an uncaught
exception (the `StopIteration` of the final unknown-surface rewrite) even
when the insertion and padding loops themselves succeed — no processing
step can introduce a type-2 piece, so the final
`next(piece for piece in model.pieces if piece.type == 2)` finds none. -/
theorem modify_without_unknown_piece_fails (m : SPModel)
    (addTokens : List (Nat × String)) (d1 d2 : Nat → String)
    (vs : Option Nat) (skip : Bool) (aps : Option Bool) (ps : List Piece)
    (hno : ∀ p ∈ m.pieces, p.ptype ≠ 2)
    (hok : modifyPieces m addTokens d1 d2 vs skip = .ok ps) :
    modify_sentencepiece_model m addTokens d1 d2 vs skip aps =
      .error .noUnkPiece := by
  have hps := modifyPieces_no2 m addTokens d1 d2 vs skip ps hno hok
  have hfind : ps.find? (fun p => p.ptype == 2) = none :=
    List.find?_eq_none.2 (fun p hp => by simpa using hps p hp)
  unfold modify_sentencepiece_model
  rw [hok]
  show (match ps.find? (fun p => p.ptype == 2) with
    | none => Except.error MErr.noUnkPiece
    | some unkPiece =>
      Except.ok ({ pieces := ps, unkSurface := unkPiece.piece,
                   addDummyPref := aps.getD m.addDummyPref } : SPModel)) =
    Except.error MErr.noUnkPiece
  rw [hfind]

/-- Witness for `modify_without_unknown_piece_fails` at a concrete model
with no unknown-tagged piece. -/
theorem modify_without_unknown_piece_fails_witness :
    modify_sentencepiece_model ⟨[⟨"a", 1, 0⟩], "q", false⟩ [] (fun _ => "d")
        (fun _ => "d") none false none = .error .noUnkPiece :=
  modify_without_unknown_piece_fails ⟨[⟨"a", 1, 0⟩], "q", false⟩ []
    (fun _ => "d") (fun _ => "d") none false none [⟨"a", 1, 0⟩]
    (by decide) rfl

/-- Claim C7 (amended): applying `modify_sentencepiece_model` a second time
with the same insertion set and settings to the output of a first
application returns that output unchanged, provided every requested id in
the first output holds exactly its requested text with a retag-stable type
tag (as the first pass arranges for the pieces it processes).  Without
that proviso the property fails: a later relocation can shift an earlier
insertion away from its requested id, and the second application relocates
it again (see the counterexample). -/
theorem modify_idempotent_when_positions_stable (m m1 : SPModel)
    (addTokens : List (Nat × String)) (d1 d2 : Nat → String)
    (vs : Option Nat) (skip : Bool) (aps : Option Bool)
    (h1 : modify_sentencepiece_model m addTokens d1 d2 vs skip aps = .ok m1)
    (hpos : ∀ r ∈ addTokens, ∃ p, m1.pieces[r.1]? = some p ∧ p.piece = r.2 ∧
      retag skip p.ptype = p.ptype) :
    modify_sentencepiece_model m1 addTokens d1 d2 vs skip aps = .ok m1 := by
  unfold modify_sentencepiece_model at h1
  split at h1
  · cases h1
  · rename_i ps hmp
    split at h1
    · cases h1
    · rename_i unk hf
      cases h1
      have hrun2 : runSteps (stepOne (existingMap ps) d1 skip) ps
          (sortByFst addTokens) = .ok ps :=
        runSteps_reuse_fixed (existingMap ps) d1 skip (sortByFst addTokens) ps
          (fun r hr => hpos r ((sortByFst_perm addTokens).mem_iff.1 hr))
      unfold modifyPieces at hmp
      split at hmp
      · cases hmp
      · rename_i ps0 hrun1
        have hpad2 : padLoop d2 vs ps = .ok ps := padLoop_idem d2 vs ps0 ps hmp
        have hmp2 : modifyPieces
            ⟨ps, unk.piece, aps.getD m.addDummyPref⟩ addTokens d1 d2 vs skip =
            .ok ps := by
          unfold modifyPieces
          rw [hrun2]
          show padLoop d2 vs ps = .ok ps
          exact hpad2
        have hb : aps.getD (aps.getD m.addDummyPref) = aps.getD m.addDummyPref := by
          cases aps <;> rfl
        unfold modify_sentencepiece_model
        rw [hmp2]
        show (match ps.find? (fun p => p.ptype == 2) with
          | none => Except.error MErr.noUnkPiece
          | some unkPiece =>
            Except.ok ({ pieces := ps, unkSurface := unkPiece.piece,
                         addDummyPref := aps.getD (aps.getD m.addDummyPref) } : SPModel)) =
          Except.ok (⟨ps, unk.piece, aps.getD m.addDummyPref⟩ : SPModel)
        rw [hf, hb]

/-- Witness for `modify_idempotent_when_positions_stable`: a first
application that only retags in place, followed by the second application
returning the same output. -/
theorem modify_idempotent_when_positions_stable_witness :
    modify_sentencepiece_model ⟨[⟨"B", 1, 0⟩, ⟨"<unk>", 2, 0⟩], "<unk>", false⟩
        [(0, "B")] (fun _ => "d") (fun _ => "d") none false none =
      .ok ⟨[⟨"B", 1, 0⟩, ⟨"<unk>", 2, 0⟩], "<unk>", false⟩ :=
  modify_idempotent_when_positions_stable
    ⟨[⟨"B", 1, 0⟩, ⟨"<unk>", 2, 0⟩], "q", false⟩
    ⟨[⟨"B", 1, 0⟩, ⟨"<unk>", 2, 0⟩], "<unk>", false⟩
    [(0, "B")] (fun _ => "d") (fun _ => "d") none false none rfl
    (by
      intro r hr
      rw [List.mem_singleton] at hr
      subst hr
      exact ⟨⟨"B", 1, 0⟩, rfl, rfl, rfl⟩)

theorem add_prefix_tokens_left_eq (prefixTokens : List Int) (batch seq : Nat)
    (indices : List (Nat × Nat)) (values : List Int) (mk : List (List Nat)) :
    add_prefix_tokens prefixTokens (batch, seq) indices values (some mk) true =
      .ok { denseShape := (batch, seq + prefixTokens.reverse.length),
            indices := indices ++
              ((List.range batch).flatMap
                  (fun b => List.replicate prefixTokens.reverse.length b)).zip
                ((List.range batch).flatMap
                  (fun b => (List.range prefixTokens.reverse.length).map
                    (fun j => (mk.getD b []).sum + j))),
            values := values ++
              (List.range batch).flatMap (fun _ => prefixTokens.reverse),
            attentionMask :=
              mk.map (fun row =>
                List.replicate prefixTokens.reverse.length 1 ++ row) } := by
  unfold add_prefix_tokens
  rw [if_neg (by simp)]
  rfl

/-- Claim C5: for every batch and prefix inserted with left padding (mask
supplied), the prefix sequence is reversed before being broadcast (the
appended values are the reversed prefix, once per row), each row's prefix
entries occupy columns `[row_mask_sum, row_mask_sum + P)`, pre-existing
indices are not shifted (the new coordinate list is the old one with the
prefix coordinates appended), the result keeps the same row count with
`sequence_length + P` columns, there are exactly `P` new entries per row,
and each row's attention-mask true-count grows by exactly `P`. -/
theorem add_prefix_tokens_left_padding_spec (prefixTokens : List Int)
    (batch seq : Nat) (indices : List (Nat × Nat)) (values : List Int)
    (mk : List (List Nat)) (res : PrefixResult)
    (hb : mk.length = batch)
    (hok : add_prefix_tokens prefixTokens (batch, seq) indices values
      (some mk) true = .ok res) :
    res.denseShape = (batch, seq + prefixTokens.length) ∧
    res.values = values ++
      (List.range batch).flatMap (fun _ => prefixTokens.reverse) ∧
    res.indices = indices ++
      (List.range batch).flatMap (fun b =>
        (List.range prefixTokens.length).map
          (fun j => (b, (mk.getD b []).sum + j))) ∧
    (∀ b, b < batch →
      ((res.indices.drop indices.length).filter
        (fun rc => rc.1 == b)).length = prefixTokens.length) ∧
    res.attentionMask.length = mk.length ∧
    (∀ b, b < mk.length →
      (res.attentionMask.getD b []).sum =
        (mk.getD b []).sum + prefixTokens.length) := by
  rw [add_prefix_tokens_left_eq] at hok
  cases hok
  have hzip :
      ((List.range batch).flatMap
          (fun b => List.replicate prefixTokens.reverse.length b)).zip
        ((List.range batch).flatMap
          (fun b => (List.range prefixTokens.reverse.length).map
            (fun j => (mk.getD b []).sum + j))) =
      (List.range batch).flatMap (fun b =>
        (List.range prefixTokens.reverse.length).map
          (fun j => (b, (mk.getD b []).sum + j))) :=
    zip_flatMap_rows prefixTokens.reverse.length (fun b j => (mk.getD b []).sum + j)
      (List.range batch)
  refine ⟨by simp, rfl, ?_, ?_, by simp, ?_⟩
  · show indices ++ _ = _
    rw [hzip, List.length_reverse]
  · intro b hbb
    show ((((indices ++ _).drop indices.length)).filter
      (fun rc => rc.1 == b)).length = prefixTokens.length
    rw [List.drop_left, hzip, List.length_reverse]
    exact filter_flatMap_rows_length prefixTokens.length
      (fun b j => (mk.getD b []).sum + j) b (List.range batch)
      (List.nodup_range batch) (List.mem_range.2 hbb)
  · intro b hbb
    show ((mk.map (fun row =>
        List.replicate prefixTokens.reverse.length 1 ++ row)).getD b []).sum =
      (mk.getD b []).sum + prefixTokens.length
    have hg : mk[b]? = some mk[b] := List.getElem?_eq_getElem hbb
    simp [List.getD, List.getElem?_map, hg, List.sum_replicate]
    omega

/-- Witness for `add_prefix_tokens_left_padding_spec`: the per-row
new-entry count and mask-sum growth at row 0 of a concrete left-padded
batch. -/
theorem add_prefix_tokens_left_padding_spec_witness :
    ((([((0 : Nat), (0 : Nat)), (0, 1), (1, 0), (0, 2), (0, 3), (1, 1),
        (1, 2)]).drop 3).filter (fun rc => rc.1 == 0)).length = 2 ∧
    (([[1, 1, 0, 1, 1], [1, 1, 0, 0, 1]] : List (List Nat)).getD 0 []).sum =
      (([[0, 1, 1], [0, 0, 1]] : List (List Nat)).getD 0 []).sum + 2 :=
  ⟨(add_prefix_tokens_left_padding_spec [100, 101] 2 3 [(0, 0), (0, 1), (1, 0)]
      [5, 6, 7] [[0, 1, 1], [0, 0, 1]]
      ⟨(2, 5), [(0, 0), (0, 1), (1, 0), (0, 2), (0, 3), (1, 1), (1, 2)],
        [5, 6, 7, 101, 100, 101, 100], [[1, 1, 0, 1, 1], [1, 1, 0, 0, 1]]⟩
      rfl rfl).2.2.2.1 0 (by decide),
   (add_prefix_tokens_left_padding_spec [100, 101] 2 3 [(0, 0), (0, 1), (1, 0)]
      [5, 6, 7] [[0, 1, 1], [0, 0, 1]]
      ⟨(2, 5), [(0, 0), (0, 1), (1, 0), (0, 2), (0, 3), (1, 1), (1, 2)],
        [5, 6, 7, 101, 100, 101, 100], [[1, 1, 0, 1, 1], [1, 1, 0, 0, 1]]⟩
      rfl rfl).2.2.2.2.2 0 (by decide)⟩

theorem parseStageStep_unknown (stage : String)
    (table : String → Option (JValue → Except CtorErr (List PStep)))
    (steps : List PStep) (fs : List (String × JValue)) (tag : String)
    (htag : jLook fs "type" = some (.str tag)) (hnone : table tag = none) :
    parseStageStep stage table steps (.obj fs) =
      .error (.ovTypeError stage (.str tag)) := by
  unfold parseStageStep jIndexE
  dsimp only
  rw [htag]
  show (match table tag with
    | none => Except.error (CErr.ovTypeError stage (.str tag))
    | some ctor =>
      match ctor (.obj fs) with
      | .ok newSteps => Except.ok (steps ++ newSteps)
      | .error .keyError => Except.error (.ovTypeError stage (.str tag))
      | .error .otherError => Except.error .otherError) = _
  rw [hnone]

theorem parseStage_single_unknown (seqKey : String)
    (f : List PStep → JValue → Except CErr (List PStep))
    (fs : List (String × JValue)) (tag : String) (e : CErr)
    (htag : jLook fs "type" = some (.str tag)) (hne : tag ≠ "Sequence")
    (hf : f [] (.obj fs) = .error e) :
    parseStage (some (.obj fs)) seqKey f = .error e := by
  unfold parseStage jGetE
  dsimp only
  rw [htag]
  split
  · rename_i heq
    rw [Option.some.injEq, JValue.str.injEq] at heq
    exact absurd heq hne
  · exact hf

theorem parseStage_sequence_member_error (seqKey : String)
    (f : List PStep → JValue → Except CErr (List PStep))
    (seqFs : List (String × JValue)) (d : JValue) (pre rest : List JValue)
    (acc : List PStep) (e : CErr)
    (htype : jLook seqFs "type" = some (.str "Sequence"))
    (hlist : jLook seqFs seqKey = some (.arr (pre ++ d :: rest)))
    (hpre : runStageSteps f [] pre = .ok acc)
    (hd : f acc d = .error e) :
    parseStage (some (.obj seqFs)) seqKey f = .error e := by
  unfold parseStage jGetE jIndexE
  dsimp only
  rw [htype]
  show (match
      (match jLook seqFs seqKey with
      | some v => Except.ok v
      | none => Except.error CtorErr.keyError) with
    | .error .keyError => Except.error CErr.uncaughtKeyError
    | .error .otherError => Except.error CErr.otherError
    | .ok (.arr ds) => runStageSteps f [] ds
    | .ok _ => Except.error CErr.otherError) = Except.error e
  rw [hlist]
  show runStageSteps f [] (pre ++ d :: rest) = Except.error e
  exact runStageSteps_append_error f e pre [] acc d rest hpre hd

/-- Claim C3 (amended): in the normalizer and pre-tokenizer stages, every
rule whose declared type tag is outside the stage's dispatch table makes
compilation raise the unsupported-rule `OVTypeError` identifying the stage
and the tag — for a single-rule stage document and for any rule of a
`Sequence` wrapper whose preceding rules parse — and no step list (no
usable pipeline) is produced.  The error is however not raised only for
unrecognized tags: a recognized rule type whose rule object is missing a
required field surfaces the same error, because the constructor's
`KeyError` is caught by the same `except KeyError` handler (see the
counterexample). -/
theorem unknown_rule_type_raises_ovtypeerror (filterRe2 : String → String)
    (tag : String) (fs : List (String × JValue))
    (htag : jLook fs "type" = some (.str tag)) :
    (normalizerCtor filterRe2 tag = none → ∀ steps,
      parse_normalizer_step filterRe2 steps (.obj fs) =
        .error (.ovTypeError "Normalizer" (.str tag))) ∧
    (preTokenizerCtor tag = none → ∀ steps,
      parse_pre_tokenization_step steps (.obj fs) =
        .error (.ovTypeError "Pre-tokenizer" (.str tag))) ∧
    (tag ≠ "Sequence" → normalizerCtor filterRe2 tag = none →
      normalization filterRe2 (some (.obj fs)) =
        .error (.ovTypeError "Normalizer" (.str tag))) ∧
    (tag ≠ "Sequence" → preTokenizerCtor tag = none →
      pre_tokenization (some (.obj fs)) =
        .error (.ovTypeError "Pre-tokenizer" (.str tag))) ∧
    (∀ (seqFs : List (String × JValue)) (pre rest : List JValue)
        (acc : List PStep),
      jLook seqFs "type" = some (.str "Sequence") →
      jLook seqFs "normalizers" = some (.arr (pre ++ .obj fs :: rest)) →
      runStageSteps (parse_normalizer_step filterRe2) [] pre = .ok acc →
      normalizerCtor filterRe2 tag = none →
      normalization filterRe2 (some (.obj seqFs)) =
        .error (.ovTypeError "Normalizer" (.str tag))) := by
  refine ⟨?_, ?_, ?_, ?_, ?_⟩
  · intro hnone steps
    exact parseStageStep_unknown "Normalizer" (normalizerCtor filterRe2) steps
      fs tag htag hnone
  · intro hnone steps
    exact parseStageStep_unknown "Pre-tokenizer" preTokenizerCtor steps
      fs tag htag hnone
  · intro hne hnone
    exact parseStage_single_unknown "normalizers" (parse_normalizer_step filterRe2)
      fs tag _ htag hne
      (parseStageStep_unknown "Normalizer" (normalizerCtor filterRe2) [] fs tag
        htag hnone)
  · intro hne hnone
    exact parseStage_single_unknown "pretokenizers" parse_pre_tokenization_step
      fs tag _ htag hne
      (parseStageStep_unknown "Pre-tokenizer" preTokenizerCtor [] fs tag
        htag hnone)
  · intro seqFs pre rest acc htype hlist hpre hnone
    exact parseStage_sequence_member_error "normalizers"
      (parse_normalizer_step filterRe2) seqFs (.obj fs) pre rest acc _
      htype hlist hpre
      (parseStageStep_unknown "Normalizer" (normalizerCtor filterRe2) acc fs tag
        htag hnone)

/-- Witness for `unknown_rule_type_raises_ovtypeerror`: a normalizer stage
whose only rule has type `"TotallyUnknownType"`, directly and inside a
`Sequence` wrapper after one recognized rule. -/
theorem unknown_rule_type_raises_ovtypeerror_witness :
    normalization id (some (.obj [("type", .str "TotallyUnknownType")])) =
      .error (.ovTypeError "Normalizer" (.str "TotallyUnknownType")) ∧
    pre_tokenization (some (.obj [("type", .str "TotallyUnknownType")])) =
      .error (.ovTypeError "Pre-tokenizer" (.str "TotallyUnknownType")) ∧
    normalization id (some (.obj [("type", .str "Sequence"),
        ("normalizers", .arr [.obj [("type", .str "NFC")],
          .obj [("type", .str "TotallyUnknownType")]])])) =
      .error (.ovTypeError "Normalizer" (.str "TotallyUnknownType")) :=
  ⟨(unknown_rule_type_raises_ovtypeerror id "TotallyUnknownType"
      [("type", .str "TotallyUnknownType")] rfl).2.2.1 (by decide) rfl,
   (unknown_rule_type_raises_ovtypeerror id "TotallyUnknownType"
      [("type", .str "TotallyUnknownType")] rfl).2.2.2.1 (by decide) rfl,
   (unknown_rule_type_raises_ovtypeerror id "TotallyUnknownType"
      [("type", .str "TotallyUnknownType")] rfl).2.2.2.2
      [("type", .str "Sequence"),
       ("normalizers", .arr [.obj [("type", .str "NFC")],
         .obj [("type", .str "TotallyUnknownType")]])]
      [.obj [("type", .str "NFC")]] [] [.normalizeUnicode "NFC"]
      rfl rfl rfl rfl⟩


theorem decodingMid_sequence (fs : List (String × JValue)) (ds : List JValue)
    (htype : jLook fs "type" = some (.str "Sequence"))
    (hdec : jLook fs "decoders" = some (.arr ds))
    (hok : ∀ d ∈ ds, seqDecoderOk d = true) :
    decodingMid (.obj fs) = .ok (ds.flatMap recognizedDecoderSteps) := by
  unfold decodingMid jIndexE
  dsimp only
  rw [htype]
  show (match
      (match jLook fs "decoders" with
      | some v => Except.ok v
      | none => Except.error CtorErr.keyError) with
    | .error .keyError => Except.error CErr.uncaughtKeyError
    | .error .otherError => Except.error CErr.otherError
    | .ok (.arr ds) => runSeqDecoders [] ds
    | .ok _ => Except.error CErr.otherError) = _
  rw [hdec]
  show runSeqDecoders [] ds = _
  rw [runSeqDecoders_flatMap ds [] hok]
  rw [List.nil_append]

/-- Claim C9: in the decoding stage only, a `Sequence` decoder whose
sub-decoder's type tag is outside the supported set
`{Replace, Fuse, Strip, ByteFallback}` skips that sub-decoder silently —
it contributes no step and raises no error, and the whole stage succeeds
with exactly the steps of the recognized sub-decoders — in contrast to
the hard unsupported-rule failure of the other stages (settled
separately for the normalizer and pre-tokenizer stages). -/
theorem sequence_decoder_silently_skips_unknown
    (fs : List (String × JValue)) (ds : List JValue) (modelType : String)
    (eow csp : Option String) (skipSp : Bool) (specials : List Int)
    (cleanUpParam : Option Bool) (tokCleanUp : Bool)
    (hmt : modelType ≠ "WordPiece")
    (htype : jLook fs "type" = some (.str "Sequence"))
    (hdec : jLook fs "decoders" = some (.arr ds))
    (hok : ∀ d ∈ ds, seqDecoderOk d = true) :
    (∀ (d : JValue) (gs : List (String × JValue)) (s : String),
      d = .obj gs → jLook gs "type" = some (.str s) → decodingCtor s = none →
      recognizedDecoderSteps d = []) ∧
    decoding (some (.obj fs)) modelType eow csp skipSp specials cleanUpParam
        tokCleanUp =
      .ok (if cleanUpParam.getD tokCleanUp then
            (PStep.vocabDecoder (if skipSp then specials else []) ::
              ds.flatMap recognizedDecoderSteps ++
              (match eow with
               | some sfx => if sfx ≠ "" then [PStep.replaceEndOfWordSuffix sfx]
                 else []
               | none => []) ++
              (match csp with
               | some pfx => if pfx ≠ "" then [PStep.replaceContinuingSubword pfx]
                 else []
               | none => [])) ++ [PStep.cleanUpTokenizationSpaces]
          else
            PStep.vocabDecoder (if skipSp then specials else []) ::
              ds.flatMap recognizedDecoderSteps ++
              (match eow with
               | some sfx => if sfx ≠ "" then [PStep.replaceEndOfWordSuffix sfx]
                 else []
               | none => []) ++
              (match csp with
               | some pfx => if pfx ≠ "" then [PStep.replaceContinuingSubword pfx]
                 else []
               | none => [])) := by
  constructor
  · intro d gs s hd htag hctor
    subst hd
    unfold recognizedDecoderSteps
    dsimp only
    rw [htag]
    show (match decodingCtor s with
      | some ctor => ctor (.obj gs)
      | none => []) = []
    rw [hctor]
  · unfold decoding
    dsimp only
    rw [if_neg hmt, decodingMid_sequence fs ds htype hdec hok]
    rfl

/-- Witness for `sequence_decoder_silently_skips_unknown`: a `Sequence`
decoder with one recognized (`Fuse`) and one unrecognized (`Mystery`)
sub-decoder succeeds, the unrecognized entry contributing no step. -/
theorem sequence_decoder_silently_skips_unknown_witness :
    recognizedDecoderSteps (.obj [("type", .str "Mystery")]) = [] ∧
    decoding (some (.obj [("type", .str "Sequence"),
        ("decoders", .arr [.obj [("type", .str "Fuse")],
          .obj [("type", .str "Mystery")]])])) "BPE" none none false []
        (some false) false =
      .ok [PStep.vocabDecoder [], PStep.fuse] :=
  ⟨(sequence_decoder_silently_skips_unknown
      [("type", .str "Sequence"),
       ("decoders", .arr [.obj [("type", .str "Fuse")],
         .obj [("type", .str "Mystery")]])]
      [.obj [("type", .str "Fuse")], .obj [("type", .str "Mystery")]]
      "BPE" none none false [] (some false) false (by decide) rfl rfl
      (by decide)).1
      (.obj [("type", .str "Mystery")]) [("type", .str "Mystery")] "Mystery"
      rfl rfl rfl,
   (sequence_decoder_silently_skips_unknown
      [("type", .str "Sequence"),
       ("decoders", .arr [.obj [("type", .str "Fuse")],
         .obj [("type", .str "Mystery")]])]
      [.obj [("type", .str "Fuse")], .obj [("type", .str "Mystery")]]
      "BPE" none none false [] (some false) false (by decide) rfl rfl
      (by decide)).2⟩
